import Mathlib

/-!
Verification of the scheduling/assignment engine of the elementary-school
database system.

The development shallowly embeds the SQL-backed Python APIs as pure Lean
functions over an explicit database state `DB`:

* `addClass.py`          → `createClass` (room-conflict gate + insert);
* `fillClass.py`         → `fillClass` (staff assignment, grade/homeroom
                           eligibility filter, idempotent enrollment);
* `requestTimeOff.py`    → `submitTimeOff` (staff/substitute validation,
                           availability gate, request insertion);
* `suggestSubstitutes.py`→ `suggestSubstitutes` (overlapping-request
                           short-circuit, candidate listing).

Tables are lists of rows in insertion order; a SQL `SELECT ... fetchone()`
becomes `List.find?`/`List.head?` over the filtered list, `fetchall`
becomes `List.filter`/`flatMap`, `ORDER BY` becomes a sort, and
`COUNT(*)` becomes `List.countP`.  Dates are day numbers (`Nat`, e.g.
`20250201`) ordered like calendar dates; times of day and durations are
minutes (`Nat`), and the Postgres `time + interval` sums of the room
check wrap modulo 24 hours (1440 minutes), as the source's column types
dictate.
-/

/-- Row of the `Student` table: internal id, public number, grade string. -/
structure StudentRow where
  id : Nat
  number : String
  grade : String
deriving DecidableEq

/-- Row of the `class` table: id, public number, class-type id (foreign key
into `classtype`), room number, start time and duration in minutes. -/
structure ClassRow where
  id : Nat
  number : String
  classTypeId : String
  roomNumber : String
  startTime : Nat
  duration : Nat
deriving DecidableEq

/-- Row of the `Staff` table. -/
structure StaffRow where
  id : Nat
  number : String
  firstName : String
  lastName : String
deriving DecidableEq

/-- Row of the `Substitute` table. -/
structure SubstituteRow where
  id : Nat
  number : String
  firstName : String
  lastName : String
  workEmail : String
deriving DecidableEq

/-- Row of the `Availability` table: a closed date interval during which a
substitute can be booked. -/
structure AvailabilityRow where
  substituteId : Nat
  startDate : Nat
  endDate : Nat
deriving DecidableEq

/-- Row of the `TimeOffRequest` table. `substituteId` is the optional
committed substitute (`NULL` → `none`). -/
structure TimeOffRow where
  id : Nat
  startDate : Nat
  endDate : Nat
  reason : String
  staffId : Nat
  substituteId : Option Nat
deriving DecidableEq

/-- The database state: one list per table (rows in table order) plus the
value the `TimeOffRequest` id sequence will hand out next.  `classTypes`
and `rooms` hold the identifiers of the static reference tables
`classtype` and `room`; they are what the foreign keys of `class` point
into. -/
structure DB where
  students : List StudentRow
  classes : List ClassRow
  classTypes : List String
  rooms : List String
  staff : List StaffRow
  substitutes : List SubstituteRow
  availability : List AvailabilityRow
  timeOffRequests : List TimeOffRow
  studentToClass : List (Nat × Nat)
  staffToClass : List (Nat × Nat)
  nextRequestId : Nat
deriving DecidableEq

/-! ### Time-interval utilities -/

/-- The room-availability test of `check_room_availability_plan` in
`addClass.py`, per existing class row `c` against a proposed slot
`(start, dur)`: `$2 < (StartTime + Duration) AND StartTime < ($2 + $3)`.
`StartTime`/`$2` are Postgres `time` and `Duration`/`$3` are `interval`,
so both sums are times of day that wrap modulo 24 hours — in minutes,
modulo 1440. -/
def roomConflict (c : ClassRow) (room : String) (start dur : Nat) : Bool :=
  c.roomNumber == room &&
    decide (start < (c.startTime + c.duration) % 1440) &&
    decide (c.startTime < (start + dur) % 1440)

/-- Existence of a conflicting class in a room (`SELECT 1 FROM class WHERE
RoomNumber = $1 AND ...` returning at least one row). -/
def hasRoomConflict (db : DB) (room : String) (start dur : Nat) : Bool :=
  db.classes.any (fun c => roomConflict c room start dur)

/-- The three-disjunct date-range condition of
`suggest_subs_timeoff_request_plan` (and of the `NOT IN` subquery of
`suggest_subs_available_plan`) in `suggestSubstitutes.py`, with all of
`$2..$7` bound to the query range `(qs, qe)` as in `retrieveOutput`:
`(StartDate <= $2 AND EndDate >= $3) OR (StartDate >= $4 AND StartDate <= $5)
OR (EndDate >= $6 AND EndDate <= $7)` where `(rs, re)` is the stored row's
range. -/
def dateRangeOverlapsDisj (rs re qs qe : Nat) : Bool :=
  (decide (rs ≤ qs) && decide (qe ≤ re)) ||
    (decide (qs ≤ rs) && decide (rs ≤ qe)) ||
    (decide (qs ≤ re) && decide (re ≤ qe))

/-- Single-row coverage test shared by `check_substitute_availability_plan`
(`requestTimeOff.py`) and the covering `JOIN` conditions in
`suggestSubstitutes.py`: `StartDate <= target-start AND EndDate >=
target-end`. -/
def covers (a : AvailabilityRow) (s e : Nat) : Bool :=
  decide (a.startDate ≤ s) && decide (e ≤ a.endDate)

/-! ### Availability index (`requestTimeOff.py`) -/

/-- The `COUNT(*)` of `check_substitute_availability_plan`: number of
availability rows of substitute `sid` that each singly cover `[s, e]`. -/
def coveringCount (db : DB) (sid : Nat) (s e : Nat) : Nat :=
  db.availability.countP (fun a => a.substituteId == sid && covers a s e)

/-- The availability gate of `retrieveOutput` in `requestTimeOff.py`: the
request is blocked exactly when the covering count is zero, so the
substitute counts as available iff at least one single row covers the
target range. -/
def isAvailable (db : DB) (sid : Nat) (s e : Nat) : Bool :=
  !(coveringCount db sid s e == 0)

/-! ### createClass (`addClass.py`) -/

/-- Outcome of `addClass.retrieveOutput`: the room-conflict rejection, a
storage-layer failure (e.g. a foreign-key violation on insert, which the
source surfaces as a generic error after rollback), or the created row. -/
inductive CreateClassResult where
  | roomUnavailable
  | persistenceFailure
  | created (row : ClassRow)
deriving DecidableEq

/-- Truth of being the `created` outcome. -/
def CreateClassResult.success : CreateClassResult → Bool
  | .created _ => true
  | _ => false

/-- Largest class id in the table (0 when empty); `retrieveOutput` resets
the id sequence to `COALESCE(max(id), 0) + 1` before inserting. -/
def maxClassId (l : List ClassRow) : Nat :=
  l.foldr (fun c m => max c.id m) 0

/-- The `addClass.retrieveOutput` pipeline: check the room, then insert a
row whose id is `max(id) + 1` and whose `Number` is `'C' || id`
(`insert_class_plan_v5`).  An insert whose class type or room does not
resolve violates a foreign key and persists nothing. -/
def createClass (db : DB) (classType room : String) (start dur : Nat) :
    CreateClassResult × DB :=
  if hasRoomConflict db room start dur then
    (.roomUnavailable, db)
  else
    let newId := maxClassId db.classes + 1
    let row : ClassRow :=
      { id := newId, number := "C" ++ toString newId, classTypeId := classType,
        roomNumber := room, startTime := start, duration := dur }
    if db.classTypes.contains classType && db.rooms.contains room then
      (.created row, { db with classes := db.classes ++ [row] })
    else
      (.persistenceFailure, db)

/-! ### submitTimeOff (`requestTimeOff.py`) -/

/-- The denormalized confirmation assembled from
`get_time_off_request_plan` (request joined to `Staff`, left-joined to
`Substitute`). -/
structure RequestConfirmation where
  requestId : Nat
  startDate : Nat
  endDate : Nat
  reason : String
  staffNumber : String
  staffName : String
  subNumber : Option String
  subName : Option String
deriving DecidableEq

/-- Outcome of `requestTimeOff.retrieveOutput`.  The first three mirror the
error messages for unknown staff, unknown substitute and the availability
gate; `retrievalFailed` mirrors "Failed to retrieve request details."
(the row is already committed at that point). -/
inductive TimeOffResult where
  | staffNotFound
  | substituteNotFound
  | substituteUnavailable
  | retrievalFailed
  | created (conf : RequestConfirmation)
deriving DecidableEq

/-- Truth of being the `created` outcome. -/
def TimeOffResult.isCreated : TimeOffResult → Bool
  | .created _ => true
  | _ => false

/-- The confirmation query `get_time_off_request_plan`: find the request by
id, inner-join its staff row by id, left-join its substitute row by id. -/
def requestDetails (db : DB) (rid : Nat) : Option RequestConfirmation :=
  match db.timeOffRequests.find? (fun r => r.id == rid) with
  | none => none
  | some r =>
    match db.staff.find? (fun t => t.id == r.staffId) with
    | none => none
    | some stf =>
      let subOpt : Option SubstituteRow :=
        match r.substituteId with
        | none => none
        | some sid => db.substitutes.find? (fun t => t.id == sid)
      some { requestId := r.id, startDate := r.startDate, endDate := r.endDate,
             reason := r.reason, staffNumber := stf.number,
             staffName := stf.firstName ++ " " ++ stf.lastName,
             subNumber := subOpt.map (fun t => t.number),
             subName := subOpt.map (fun t => t.firstName ++ " " ++ t.lastName) }

/-- Insert the `TimeOffRequest` row (with the sequence's next id), then
re-query it for the confirmation, mirroring the tail of
`requestTimeOff.retrieveOutput`. -/
def commitRequest (db : DB) (stf : StaffRow) (s e : Nat) (reason : String)
    (subId : Option Nat) : TimeOffResult × DB :=
  let rid := db.nextRequestId
  let row : TimeOffRow :=
    { id := rid, startDate := s, endDate := e, reason := reason,
      staffId := stf.id, substituteId := subId }
  let db' := { db with timeOffRequests := db.timeOffRequests ++ [row],
                       nextRequestId := rid + 1 }
  match requestDetails db' rid with
  | some conf => (.created conf, db')
  | none => (.retrievalFailed, db')

/-- The `requestTimeOff.retrieveOutput` pipeline: resolve the staff number,
optionally resolve the substitute number (a supplied empty string is falsy
in the Python guard `if self.substitute_number:` and counts as absent),
apply the availability gate when a substitute is supplied, then insert.
No comparison between the start and end dates is ever made. -/
def submitTimeOff (db : DB) (staffNum : String) (s e : Nat) (reason : String)
    (subNum : Option String) : TimeOffResult × DB :=
  match db.staff.find? (fun t => t.number == staffNum) with
  | none => (.staffNotFound, db)
  | some stf =>
    let subNum' : Option String :=
      match subNum with
      | some n => if n == "" then none else some n
      | none => none
    match subNum' with
    | none => commitRequest db stf s e reason none
    | some n =>
      match db.substitutes.find? (fun t => t.number == n) with
      | none => (.substituteNotFound, db)
      | some sub =>
        if coveringCount db sub.id s e == 0 then
          (.substituteUnavailable, db)
        else
          commitRequest db stf s e reason (some sub.id)

/-! ### fillClass (`fillClass.py`) -/

/-- Lookup `get_class_id_plan`: first class row with the given number. -/
def findClassByNumber (db : DB) (n : String) : Option ClassRow :=
  db.classes.find? (fun c => c.number == n)

/-- Lookup `get_staff_id_plan`: first staff row with the given number. -/
def findStaffByNumber (db : DB) (n : String) : Option StaffRow :=
  db.staff.find? (fun t => t.number == n)

/-- Lookup `get_student_id_plan`: first student row with the given number. -/
def findStudentByNumber (db : DB) (n : String) : Option StudentRow :=
  db.students.find? (fun s => s.number == n)

/-- The SQL pattern `ClassTypeID LIKE '%HR%'`: the characters `HR` occur
consecutively somewhere in the identifier. -/
def hasHR : List Char → Bool
  | [] => false
  | 'H' :: 'R' :: _ => true
  | _ :: rest => hasHR rest

/-- Homeroom flag of a class-type identifier. -/
def isHomeroomType (ctid : String) : Bool :=
  hasHR ctid.toList

/-- The `NOT EXISTS` subquery of `get_eligible_students_plan`: the student
(by internal id) has some `StudentToClass` row joined to a class whose
type is homeroom-flagged and whose number differs from the target class
number. -/
def hasOtherHomeroom (db : DB) (sid : Nat) (target : String) : Bool :=
  db.studentToClass.any (fun p =>
    p.1 == sid && db.classes.any (fun c =>
      c.id == p.2 && isHomeroomType c.classTypeId && c.number != target))

/-- The eligible-student query `get_eligible_students_plan`: students whose
stored grade equals the target grade and who hold no enrollment in a
homeroom-flagged class other than the target class. -/
def eligibleStudents (db : DB) (grade target : String) : List StudentRow :=
  db.students.filter (fun s =>
    s.grade == grade && !hasOtherHomeroom db s.id target)

/-- The details query `get_class_details_plan`: first class row with the
given number that joins to an existing `classtype` row, yielding its start
time, duration, and derived grade `LEFT(ct.ID, 1)`. -/
def getClassDetails (db : DB) (n : String) : Option (Nat × Nat × String) :=
  match db.classes.find? (fun c =>
      c.number == n && db.classTypes.contains c.classTypeId) with
  | some c => some (c.startTime, c.duration, c.classTypeId.take 1)
  | none => none

/-- Modelled from the spec: the repository's `schema.sql` (generated by
`extract_schema.py`, not under `src/`) carries the uniqueness constraints
on the link tables that make the source's `INSERT ... ON CONFLICT DO
NOTHING` statements skip an existing `(memberId, classId)` pair, per the
spec's idempotent-insert contract ("duplicates are silently skipped, not
errors").  The insert is a no-op when the pair is already present and
appends it otherwise. -/
def insertIfAbsent (l : List (Nat × Nat)) (p : Nat × Nat) : List (Nat × Nat) :=
  if p ∈ l then l else l ++ [p]

/-- One turn of the enrollment loop of `fillClass.retrieveOutput`: resolve
the student number to an id (skip the row when it does not resolve) and
insert into `StudentToClass` with `ON CONFLICT DO NOTHING`. -/
def enrollStudent (db : DB) (n : String) (cid : Nat) : DB :=
  match findStudentByNumber db n with
  | some s => { db with studentToClass := insertIfAbsent db.studentToClass (s.id, cid) }
  | none => db

/-- The enrollment loop over the eligible student numbers. -/
def enrollAll (db : DB) (ns : List String) (cid : Nat) : DB :=
  ns.foldl (fun acc n => enrollStudent acc n cid) db

/-- The roster query `get_class_assignments_plan`: student numbers joined
through `StudentToClass` to the class with the given number, followed
(`UNION ALL`) by staff numbers joined through `StaffToClass`. -/
def classRoster (db : DB) (n : String) : List (String × String) :=
  (db.students.flatMap (fun s =>
    (db.studentToClass.filter (fun p => p.1 == s.id &&
      db.classes.any (fun c => c.id == p.2 && c.number == n))).map
        (fun _ => (s.number, "student")))) ++
  (db.staff.flatMap (fun t =>
    (db.staffToClass.filter (fun p => p.1 == t.id &&
      db.classes.any (fun c => c.id == p.2 && c.number == n))).map
        (fun _ => (t.number, "staff"))))

/-- The `fillClass.retrieveOutput` pipeline: resolve the class and staff
numbers, assign the staff (idempotent insert), derive the class grade,
enroll every eligible student (idempotent inserts), and return the
roster.  Failures return the error message's key with the state reached
so far (the staff assignment is already committed when the details query
fails). -/
def fillClass (db : DB) (cn sn : String) :
    Except String (List (String × String)) × DB :=
  match findClassByNumber db cn with
  | none => (.error "class not found", db)
  | some c =>
    match findStaffByNumber db sn with
    | none => (.error "staff not found", db)
    | some stf =>
      let db1 := { db with staffToClass := insertIfAbsent db.staffToClass (stf.id, c.id) }
      match getClassDetails db1 cn with
      | none => (.error "class details not found", db1)
      | some (_, _, grade) =>
        let nums := (eligibleStudents db1 grade cn).map (fun s => s.number)
        let db2 := enrollAll db1 nums c.id
        (.ok (classRoster db2 cn), db2)

/-! ### suggestSubstitutes (`suggestSubstitutes.py`) -/

/-- The substitute ids excluded by the `NOT IN` subquery of
`suggest_subs_available_plan`: substitutes committed (non-`NULL`
`SubstituteID`) to a `TimeOffRequest` whose range passes the
three-disjunct overlap test against the query range. -/
def committedSubIds (db : DB) (s e : Nat) : List Nat :=
  (db.timeOffRequests.filter (fun r =>
    r.substituteId.isSome && dateRangeOverlapsDisj r.startDate r.endDate s e)).filterMap
      (fun r => r.substituteId)

/-- The rows a single substitute contributes to
`suggest_subs_available_plan`: nothing when the substitute is excluded,
otherwise one row per covering availability interval. -/
def subBlock (db : DB) (s e : Nat) (sub : SubstituteRow) :
    List (SubstituteRow × AvailabilityRow) :=
  if sub.id ∈ committedSubIds db s e then []
  else (db.availability.filter (fun a =>
    a.substituteId == sub.id && covers a s e)).map (fun a => (sub, a))

/-- The unsorted `Substitute JOIN Availability` result of
`suggest_subs_available_plan` before its `ORDER BY`. -/
def candidateRows (db : DB) (s e : Nat) : List (SubstituteRow × AvailabilityRow) :=
  db.substitutes.flatMap (subBlock db s e)

/-- The `ORDER BY s.LastName, s.FirstName` ordering on joined rows. -/
def candLE (x y : SubstituteRow × AvailabilityRow) : Prop :=
  x.1.lastName < y.1.lastName ∨
    (x.1.lastName = y.1.lastName ∧ x.1.firstName ≤ y.1.firstName)

instance : DecidableRel candLE := fun x y =>
  inferInstanceAs (Decidable (x.1.lastName < y.1.lastName ∨
    (x.1.lastName = y.1.lastName ∧ x.1.firstName ≤ y.1.firstName)))

/-- The materialized, ordered candidate list of
`suggest_subs_available_plan`. -/
def listCandidates (db : DB) (s e : Nat) : List (SubstituteRow × AvailabilityRow) :=
  List.insertionSort candLE (candidateRows db s e)

/-- The overlapping requests of a staff member, per
`suggest_subs_timeoff_request_plan`; `retrieveOutput`'s `fetchone` takes
the head of this list. -/
def overlappingRequests (db : DB) (staffId : Nat) (s e : Nat) : List TimeOffRow :=
  db.timeOffRequests.filter (fun r =>
    r.staffId == staffId && dateRangeOverlapsDisj r.startDate r.endDate s e)

/-- The assigned-substitute query `suggest_subs_assigned_plan`: first
`Substitute JOIN Availability` row for the given substitute id whose
interval covers the query range. -/
def findAssignedSub (db : DB) (subId : Nat) (s e : Nat) :
    Option (SubstituteRow × AvailabilityRow) :=
  (db.substitutes.flatMap (fun sub =>
    if sub.id == subId then
      (db.availability.filter (fun a =>
        a.substituteId == sub.id && covers a s e)).map (fun a => (sub, a))
    else [])).head?

/-- One entry of the `suggestSubstitutes` output list (the dictionary built
in `retrieveOutput`). -/
structure SubEntry where
  number : String
  firstName : String
  lastName : String
  workEmail : String
  availStart : Nat
  availEnd : Nat
  alreadyAssigned : Bool
deriving DecidableEq

/-- Entry built from a joined substitute/availability row. -/
def mkEntry (sub : SubstituteRow) (a : AvailabilityRow) (flag : Bool) : SubEntry :=
  { number := sub.number, firstName := sub.firstName, lastName := sub.lastName,
    workEmail := sub.workEmail, availStart := a.startDate, availEnd := a.endDate,
    alreadyAssigned := flag }

/-- The `suggestSubstitutes.retrieveOutput` pipeline: resolve the staff
number; take the first overlapping request of that staff; if it carries a
committed substitute with a covering availability row, return that single
entry marked already assigned; otherwise return the ordered candidate
list, each entry marked not assigned. -/
def suggestSubstitutes (db : DB) (staffNum : String) (s e : Nat) :
    Except String (List SubEntry) :=
  match db.staff.find? (fun t => t.number == staffNum) with
  | none => .error "staff not found"
  | some stf =>
    let fallback := (listCandidates db s e).map (fun c => mkEntry c.1 c.2 false)
    match (overlappingRequests db stf.id s e).head? with
    | some r =>
      match r.substituteId with
      | some subId =>
        match findAssignedSub db subId s e with
        | some (sub, a) => .ok [mkEntry sub a true]
        | none => .ok fallback
      | none => .ok fallback
    | none => .ok fallback

/-! ### Concrete states used by scenarios, witnesses and counterexamples -/

/-- The empty database (every table empty, request sequence at 1). -/
def emptyDB : DB :=
  { students := [], classes := [], classTypes := [], rooms := [],
    staff := [], substitutes := [], availability := [],
    timeOffRequests := [], studentToClass := [], staffToClass := [],
    nextRequestId := 1 }

/-- State for the availability scenario: substitute 1 with the single
availability interval 2025-01-01 .. 2025-01-10. -/
def availDB : DB :=
  { emptyDB with
    substitutes := [⟨1, "SUB1", "Sia", "Moss", "sia@school.example"⟩],
    availability := [⟨1, 20250101, 20250110⟩] }

/-- State for the room scenario: room R100, class types 1HR and 2HR, no
classes yet. -/
def roomDB : DB :=
  { emptyDB with classTypes := ["1HR", "2HR"], rooms := ["R100"] }

/-- The room scenario state after the first creation (1HR at 09:00 for
one hour, times in minutes). -/
def roomDB1 : DB :=
  (createClass roomDB "1HR" "R100" 540 60).2

/-! ### Helper lemmas -/

/-- Unfolding of the room-conflict existence test (with the wrapping
`time + interval` sums of the source). -/
theorem hasRoomConflict_iff (db : DB) (room : String) (s d : Nat) :
    hasRoomConflict db room s d = true ↔
    ∃ c ∈ db.classes, c.roomNumber = room ∧
      s < (c.startTime + c.duration) % 1440 ∧
      c.startTime < (s + d) % 1440 := by
  simp [hasRoomConflict, roomConflict, List.any_eq_true, and_assoc]

/-- C8: the three-disjunct date-range condition used by the matcher is,
for well-formed closed ranges (start ≤ end on each side), equal to the
closed-interval overlap formula `rs ≤ qe AND qs ≤ re`, and is therefore
symmetric in the two ranges. -/
theorem dateRangeOverlaps_closed_and_symm (rs re qs qe : Nat)
    (h1 : rs ≤ re) (h2 : qs ≤ qe) :
    dateRangeOverlapsDisj rs re qs qe = (decide (rs ≤ qe) && decide (qs ≤ re)) ∧
    dateRangeOverlapsDisj rs re qs qe = dateRangeOverlapsDisj qs qe rs re := by
  constructor <;>
  · rw [Bool.eq_iff_iff]
    simp only [dateRangeOverlapsDisj, Bool.or_eq_true, Bool.and_eq_true,
      decide_eq_true_eq]
    omega

/-- Witness for C8 at the ranges [1,3] and [2,5]. -/
theorem dateRangeOverlaps_closed_and_symm_witness :
    dateRangeOverlapsDisj 1 3 2 5 = (decide ((1 : Nat) ≤ 5) && decide ((2 : Nat) ≤ 3)) ∧
    dateRangeOverlapsDisj 1 3 2 5 = dateRangeOverlapsDisj 2 5 1 3 :=
  dateRangeOverlaps_closed_and_symm 1 3 2 5 (by decide) (by decide)

/-- C4: `isAvailable` holds iff at least one single availability row of
the substitute covers the whole target range; piecing the range together
from several rows does not count, so the substitute with availability
2025-01-01 .. 2025-01-10 is available for 2025-01-05 .. 2025-01-08 but
not for 2025-01-08 .. 2025-01-12. -/
theorem isAvailable_iff_single_row_covers :
    (∀ (db : DB) (sid s e : Nat), isAvailable db sid s e = true ↔
      ∃ a ∈ db.availability, a.substituteId = sid ∧ a.startDate ≤ s ∧ e ≤ a.endDate)
    ∧ (isAvailable availDB 1 20250105 20250108 = true
       ∧ isAvailable availDB 1 20250108 20250112 = false) := by
  constructor
  · intro db sid s e
    rw [isAvailable, Bool.not_eq_true', beq_eq_false_iff_ne,
      ← Nat.pos_iff_ne_zero, coveringCount, List.countP_pos_iff]
    simp [covers, and_assoc]
  · exact ⟨by decide, by decide⟩

/-- State for the midnight-wrap counterexample: room R100 already holds
a class at 23:00 (minute 1380) lasting one hour, whose Postgres end time
`StartTime + Duration` wraps to 00:00. -/
def wrapDB : DB :=
  { emptyDB with
    classTypes := ["1HR", "2HR"],
    rooms := ["R100"],
    classes := [⟨1, "C1", "1HR", "R100", 1380, 60⟩] }

/-- C2 counterexample: a proposed 23:30 + 15min slot (minutes 1410 + 15)
overlaps the existing 23:00 + 1h class under the claim's unbounded
formula `startA < endB AND startB < endA`, yet `createClass` accepts and
persists it, because the existing class's `time + interval` end wraps to
00:00 and the conflict test `'23:30' < '00:00'` fails. -/
theorem createClass_wrap_counterexample :
    (∃ c ∈ wrapDB.classes, c.roomNumber = "R100" ∧
        1410 < c.startTime + c.duration ∧ c.startTime < 1410 + 15)
    ∧ (createClass wrapDB "2HR" "R100" 1410 15).1 =
        .created ⟨2, "C2", "2HR", "R100", 1410, 15⟩
    ∧ ¬((createClass wrapDB "2HR" "R100" 1410 15).1 =
          CreateClassResult.roomUnavailable ∧
        (createClass wrapDB "2HR" "R100" 1410 15).2 = wrapDB) := by
  decide

/-- C2 amended: provided no involved slot wraps past midnight (every
existing class in the room ends strictly before 24:00 and so does the
proposed slot), `createClass` fails with `RoomUnavailable` and persists
nothing exactly when some existing class in the room overlaps the
proposed slot under the half-open test `startA < endB AND startB < endA`
with `endX = startX + durationX`; midnight-crossing sums wrap modulo 24
hours in the source's `time + interval` arithmetic and escape the test.
The scenario still holds: in room R100 a 09:00 + 1h class is created, a
09:30 + 1h class is rejected with the state unchanged, and an exactly
back-to-back 10:00 + 30min class is created. -/
theorem createClass_roomUnavailable_iff_noWrap :
    (∀ (db : DB) (ct room : String) (s d : Nat),
      (∀ c ∈ db.classes, c.roomNumber = room →
        c.startTime + c.duration < 1440) →
      s + d < 1440 →
      (((createClass db ct room s d).1 = CreateClassResult.roomUnavailable ∧
        (createClass db ct room s d).2 = db) ↔
      ∃ c ∈ db.classes, c.roomNumber = room ∧
        s < c.startTime + c.duration ∧ c.startTime < s + d))
    ∧ (createClass roomDB "1HR" "R100" 540 60).1 =
        .created ⟨1, "C1", "1HR", "R100", 540, 60⟩
    ∧ ((createClass roomDB1 "2HR" "R100" 570 60).1 = .roomUnavailable ∧
        (createClass roomDB1 "2HR" "R100" 570 60).2 = roomDB1)
    ∧ (createClass roomDB1 "2HR" "R100" 600 30).1 =
        .created ⟨2, "C2", "2HR", "R100", 600, 30⟩ := by
  refine ⟨?_, by decide, ⟨by decide, by decide⟩, by decide⟩
  intro db ct room s d hnw hsd
  have hmod : ∀ c ∈ db.classes,
      (c.roomNumber = room ∧ s < (c.startTime + c.duration) % 1440 ∧
        c.startTime < (s + d) % 1440) ↔
      (c.roomNumber = room ∧ s < c.startTime + c.duration ∧
        c.startTime < s + d) := by
    intro c hc
    constructor
    · rintro ⟨h1, h2, h3⟩
      rw [Nat.mod_eq_of_lt (hnw c hc h1)] at h2
      rw [Nat.mod_eq_of_lt hsd] at h3
      exact ⟨h1, h2, h3⟩
    · rintro ⟨h1, h2, h3⟩
      rw [Nat.mod_eq_of_lt (hnw c hc h1), Nat.mod_eq_of_lt hsd]
      exact ⟨h1, h2, h3⟩
  have hiff : (∃ c ∈ db.classes, c.roomNumber = room ∧
      s < (c.startTime + c.duration) % 1440 ∧
      c.startTime < (s + d) % 1440) ↔
      ∃ c ∈ db.classes, c.roomNumber = room ∧
        s < c.startTime + c.duration ∧ c.startTime < s + d := by
    constructor
    · rintro ⟨c, hc, hcond⟩
      exact ⟨c, hc, (hmod c hc).1 hcond⟩
    · rintro ⟨c, hc, hcond⟩
      exact ⟨c, hc, (hmod c hc).2 hcond⟩
  rw [← hiff]
  constructor
  · intro h
    cases hh : hasRoomConflict db room s d with
    | true => exact (hasRoomConflict_iff _ _ _ _).1 hh
    | false =>
      exfalso
      have h1 := h.1
      simp only [createClass, hh, Bool.false_eq_true, if_false] at h1
      split at h1 <;> simp at h1
  · intro hex
    have hh : hasRoomConflict db room s d = true :=
      (hasRoomConflict_iff _ _ _ _).2 hex
    simp [createClass, hh]

/-- Witness for the amended C2: the no-wrap premises hold at `roomDB1`
(its single class ends 10:00, the proposed 09:30 + 1h slot ends 10:30),
and the iff instance is the rejected-overlap case of the scenario. -/
theorem createClass_roomUnavailable_iff_noWrap_witness :
    ((createClass roomDB1 "2HR" "R100" 570 60).1 =
        CreateClassResult.roomUnavailable ∧
      (createClass roomDB1 "2HR" "R100" 570 60).2 = roomDB1) ↔
    ∃ c ∈ roomDB1.classes, c.roomNumber = "R100" ∧
      570 < c.startTime + c.duration ∧ c.startTime < 570 + 60 :=
  createClass_roomUnavailable_iff_noWrap.1 roomDB1 "2HR" "R100" 570 60
    (by decide) (by decide)

/-! ### Time-off submission theorems (C10, C1) -/

/-- The find-first lookup over an appended one-element list, when no
earlier row matches. -/
theorem find?_append_singleton {α : Type} (p : α → Bool) (l : List α) (a : α)
    (h : ∀ x ∈ l, p x = false) (ha : p a = true) :
    (l ++ [a]).find? p = some a := by
  rw [List.find?_append, List.find?_eq_none.2, Option.none_or]
  · simp [List.find?, ha]
  · intro x hx
    simp [h x hx]

/-- Evaluation of `commitRequest` when the sequence value is fresh and the
staff row is found again by id: the request row is appended and the
confirmation is assembled from the inserted row. -/
theorem commitRequest_eq (db : DB) (stf : StaffRow) (s e : Nat)
    (reason : String) (subId : Option Nat)
    (hfresh : ∀ r ∈ db.timeOffRequests, r.id ≠ db.nextRequestId)
    (hsid : db.staff.find? (fun t => t.id == stf.id) = some stf) :
    commitRequest db stf s e reason subId =
      (TimeOffResult.created
        { requestId := db.nextRequestId, startDate := s, endDate := e,
          reason := reason, staffNumber := stf.number,
          staffName := stf.firstName ++ " " ++ stf.lastName,
          subNumber := (subId.bind
            (fun sid => db.substitutes.find? (fun t => t.id == sid))).map
              (fun t => t.number),
          subName := (subId.bind
            (fun sid => db.substitutes.find? (fun t => t.id == sid))).map
              (fun t => t.firstName ++ " " ++ t.lastName) },
       { db with
          timeOffRequests := db.timeOffRequests ++
            [{ id := db.nextRequestId, startDate := s, endDate := e,
               reason := reason, staffId := stf.id, substituteId := subId }],
          nextRequestId := db.nextRequestId + 1 }) := by
  have hfind : (db.timeOffRequests ++
      [({ id := db.nextRequestId, startDate := s, endDate := e,
          reason := reason, staffId := stf.id, substituteId := subId } :
        TimeOffRow)]).find? (fun r => r.id == db.nextRequestId) =
      some { id := db.nextRequestId, startDate := s, endDate := e,
             reason := reason, staffId := stf.id, substituteId := subId } :=
    find?_append_singleton _ _ _ (fun x hx => by simp [hfresh x hx]) (by simp)
  cases subId <;>
    simp [commitRequest, requestDetails, hfind, hsid]

/-- C10: with all parameters supplied programmatically, `submitTimeOff`
performs no comparison of the start and end dates: for a resolvable staff
member with no substitute supplied, a request whose end date precedes its
start date is persisted and reported as a success rather than rejected. -/
theorem submitTimeOff_accepts_inverted_range (db : DB)
    (staffNum reason : String) (s e : Nat) (stf : StaffRow)
    (hstf : db.staff.find? (fun t => t.number == staffNum) = some stf)
    (hsid : db.staff.find? (fun t => t.id == stf.id) = some stf)
    (hfresh : ∀ r ∈ db.timeOffRequests, r.id ≠ db.nextRequestId)
    (_hinv : e < s) :
    submitTimeOff db staffNum s e reason none =
      (TimeOffResult.created
        { requestId := db.nextRequestId, startDate := s, endDate := e,
          reason := reason, staffNumber := stf.number,
          staffName := stf.firstName ++ " " ++ stf.lastName,
          subNumber := none, subName := none },
       { db with
          timeOffRequests := db.timeOffRequests ++
            [{ id := db.nextRequestId, startDate := s, endDate := e,
               reason := reason, staffId := stf.id, substituteId := none }],
          nextRequestId := db.nextRequestId + 1 }) := by
  simp only [submitTimeOff, hstf]
  simpa using commitRequest_eq db stf s e reason none hfresh hsid

/-- State for the inverted-range scenario: a single staff member, no
requests yet. -/
def invDB : DB :=
  { emptyDB with staff := [⟨1, "ST1", "Ann", "Lee"⟩] }

/-- Witness for C10: staff ST1 submits 2025-02-10 .. 2025-02-05 (end
before start); the request is persisted and confirmed. -/
theorem submitTimeOff_accepts_inverted_range_witness :
    submitTimeOff invDB "ST1" 20250210 20250205 "trip" none =
      (TimeOffResult.created
        ⟨1, 20250210, 20250205, "trip", "ST1", "Ann Lee", none, none⟩,
       { invDB with
          timeOffRequests := [⟨1, 20250210, 20250205, "trip", 1, none⟩],
          nextRequestId := 2 }) :=
  submitTimeOff_accepts_inverted_range invDB "ST1" "trip" 20250210 20250205
    ⟨1, "ST1", "Ann", "Lee"⟩ (by decide) (by decide) (by decide) (by decide)

/-- State for the double-booking scenario of C1: staff SA and SB, one
substitute SUB1 whose raw availability covers all of February 2025's
first ten days. -/
def bookDB : DB :=
  { emptyDB with
    staff := [⟨1, "SA", "Amy", "Adams"⟩, ⟨2, "SB", "Ben", "Burns"⟩],
    substitutes := [⟨5, "SUB1", "Sue", "Stone", "sue@school.example"⟩],
    availability := [⟨5, 20250201, 20250210⟩] }

/-- The scenario state after `submitTimeOff(SA, 2025-02-01, 2025-02-03,
leave, SUB1)` succeeds: SUB1 is committed to that range. -/
def bookDB1 : DB :=
  (submitTimeOff bookDB "SA" 20250201 20250203 "leave" (some "SUB1")).2

/-- C1 counterexample: after SUB1 is committed to the overlapping request
2025-02-01 .. 2025-02-03, a second `submitTimeOff` naming SUB1 for
2025-02-02 .. 2025-02-04 does not fail with `SubstituteUnavailable`; it
succeeds and persists a second request committing SUB1 again. -/
theorem submitTimeOff_double_booking_counterexample :
    (submitTimeOff bookDB "SA" 20250201 20250203 "leave" (some "SUB1")).1.isCreated = true
    ∧ (∃ r ∈ bookDB1.timeOffRequests, r.substituteId = some 5 ∧
        dateRangeOverlapsDisj r.startDate r.endDate 20250202 20250204 = true)
    ∧ isAvailable bookDB1 5 20250202 20250204 = true
    ∧ (submitTimeOff bookDB1 "SB" 20250202 20250204 "leave" (some "SUB1")).1
        ≠ TimeOffResult.substituteUnavailable
    ∧ (submitTimeOff bookDB1 "SB" 20250202 20250204 "leave" (some "SUB1")).1.isCreated = true
    ∧ (submitTimeOff bookDB1 "SB" 20250202 20250204 "leave" (some "SUB1")).2.timeOffRequests
        = bookDB1.timeOffRequests ++ [⟨2, 20250202, 20250204, "leave", 2, some 5⟩] := by
  decide

/-- C1 amended: `submitTimeOff` consults only the raw `Availability`
table, never existing `TimeOffRequest` rows, so whenever the staff and
substitute numbers resolve and a single availability row covers the
requested range, the request is created and persisted — regardless of
any committed overlapping requests in the state. -/
theorem submitTimeOff_only_checks_raw_availability (db : DB)
    (staffNum subNum reason : String) (s e : Nat)
    (stf : StaffRow) (sub : SubstituteRow)
    (hstf : db.staff.find? (fun t => t.number == staffNum) = some stf)
    (hne : subNum ≠ "")
    (hsub : db.substitutes.find? (fun t => t.number == subNum) = some sub)
    (hav : isAvailable db sub.id s e = true)
    (hsid : db.staff.find? (fun t => t.id == stf.id) = some stf)
    (hsubid : db.substitutes.find? (fun t => t.id == sub.id) = some sub)
    (hfresh : ∀ r ∈ db.timeOffRequests, r.id ≠ db.nextRequestId) :
    submitTimeOff db staffNum s e reason (some subNum) =
      (TimeOffResult.created
        { requestId := db.nextRequestId, startDate := s, endDate := e,
          reason := reason, staffNumber := stf.number,
          staffName := stf.firstName ++ " " ++ stf.lastName,
          subNumber := some sub.number,
          subName := some (sub.firstName ++ " " ++ sub.lastName) },
       { db with
          timeOffRequests := db.timeOffRequests ++
            [{ id := db.nextRequestId, startDate := s, endDate := e,
               reason := reason, staffId := stf.id,
               substituteId := some sub.id }],
          nextRequestId := db.nextRequestId + 1 }) := by
  have hcc : (coveringCount db sub.id s e == 0) = false := by
    simpa [isAvailable] using hav
  simp only [submitTimeOff, hstf, beq_iff_eq, if_neg hne, hsub, hcc,
    Bool.false_eq_true, if_false]
  simpa [hsubid] using
    commitRequest_eq db stf s e reason (some sub.id) hfresh hsid

/-- Witness for the amended C1 at the scenario state: the second,
overlapping request for SUB1 succeeds and is persisted. -/
theorem submitTimeOff_only_checks_raw_availability_witness :
    submitTimeOff bookDB1 "SB" 20250202 20250204 "leave" (some "SUB1") =
      (TimeOffResult.created
        ⟨2, 20250202, 20250204, "leave", "SB", "Ben Burns",
          some "SUB1", some "Sue Stone"⟩,
       { bookDB1 with
          timeOffRequests := bookDB1.timeOffRequests ++
            [⟨2, 20250202, 20250204, "leave", 2, some 5⟩],
          nextRequestId := 3 }) :=
  submitTimeOff_only_checks_raw_availability bookDB1 "SB" "SUB1" "leave"
    20250202 20250204 ⟨2, "SB", "Ben", "Burns"⟩
    ⟨5, "SUB1", "Sue", "Stone", "sue@school.example"⟩
    (by decide) (by decide) (by decide) (by decide) (by decide) (by decide)
    (by decide)

/-! ### Candidate-list theorems (C7, C9, C5) -/

/-- Totality of the `ORDER BY` relation. -/
instance : IsTotal (SubstituteRow × AvailabilityRow) candLE where
  total x y := by
    rcases lt_trichotomy x.1.lastName y.1.lastName with h | h | h
    · exact Or.inl (Or.inl h)
    · rcases le_total x.1.firstName y.1.firstName with hf | hf
      · exact Or.inl (Or.inr ⟨h, hf⟩)
      · exact Or.inr (Or.inr ⟨h.symm, hf⟩)
    · exact Or.inr (Or.inl h)

/-- Transitivity of the `ORDER BY` relation. -/
instance : IsTrans (SubstituteRow × AvailabilityRow) candLE where
  trans x y z hxy hyz := by
    rcases hxy with h1 | ⟨h1, h1f⟩ <;> rcases hyz with h2 | ⟨h2, h2f⟩
    · exact Or.inl (h1.trans h2)
    · exact Or.inl (h2 ▸ h1)
    · exact Or.inl (h1 ▸ h2)
    · exact Or.inr ⟨h1.trans h2, h1f.trans h2f⟩

/-- C7: the candidate list of the non-short-circuit branch is sorted
ascending by (lastName, firstName), and repeated evaluation on the same
state yields the identical ordered list. -/
theorem listCandidates_sorted_deterministic :
    ∀ (db : DB) (s e : Nat),
      List.Sorted candLE (listCandidates db s e) ∧
      listCandidates db s e = listCandidates db s e := by
  intro db s e
  exact ⟨List.sorted_insertionSort candLE _, rfl⟩

/-- Every row contributed by a substitute's block carries that substitute
in its first component. -/
theorem mem_subBlock_fst {db : DB} {s e : Nat} {t : SubstituteRow}
    {c : SubstituteRow × AvailabilityRow} (h : c ∈ subBlock db s e t) :
    c.1 = t := by
  unfold subBlock at h
  split at h
  · exact absurd h (List.not_mem_nil _)
  · rcases List.mem_map.1 h with ⟨a, _, rfl⟩
    rfl

/-- A substitute with a different id contributes no row counted for
`sub`. -/
theorem countP_subBlock_ne (db : DB) (s e : Nat)
    (sub other : SubstituteRow) (h : other.id ≠ sub.id) :
    (subBlock db s e other).countP (fun c => c.1.id == sub.id) = 0 := by
  apply List.countP_eq_zero.2
  intro c hc
  have := mem_subBlock_fst hc
  simp [this, h]

/-- A non-excluded substitute contributes one counted row per covering
availability interval. -/
theorem countP_subBlock_self (db : DB) (s e : Nat) (sub : SubstituteRow)
    (hex : sub.id ∉ committedSubIds db s e) :
    (subBlock db s e sub).countP (fun c => c.1.id == sub.id) =
      (db.availability.filter
        (fun a => a.substituteId == sub.id && covers a s e)).length := by
  unfold subBlock
  rw [if_neg hex, List.countP_map]
  simp [Function.comp_def]

/-- Counting over the whole join, when substitute ids are unique. -/
theorem countP_flatMap_subBlock (db : DB) (s e : Nat) (sub : SubstituteRow) :
    ∀ subs : List SubstituteRow, sub ∈ subs →
      (subs.map (fun t => t.id)).Nodup →
      sub.id ∉ committedSubIds db s e →
      (subs.flatMap (subBlock db s e)).countP (fun c => c.1.id == sub.id) =
        (db.availability.filter
          (fun a => a.substituteId == sub.id && covers a s e)).length := by
  intro subs
  induction subs with
  | nil => intro h; exact absurd h (List.not_mem_nil _)
  | cons hd tl ih =>
    intro hmem hnd hex
    rw [List.map_cons, List.nodup_cons] at hnd
    obtain ⟨hnotin, hndtl⟩ := hnd
    rw [List.flatMap_cons, List.countP_append]
    rcases List.mem_cons.1 hmem with heq | htl
    · have htail : (tl.flatMap (subBlock db s e)).countP
          (fun c => c.1.id == sub.id) = 0 := by
        apply List.countP_eq_zero.2
        intro c hc
        rcases List.mem_flatMap.1 hc with ⟨t, htmem, hct⟩
        have hct1 := mem_subBlock_fst hct
        have hne : t.id ≠ sub.id := by
          intro hEq
          apply hnotin
          rw [heq] at hEq
          exact hEq ▸ List.mem_map_of_mem (fun x => x.id) htmem
        simp [hct1, hne]
      rw [htail, Nat.add_zero, ← heq]
      exact countP_subBlock_self db s e sub hex
    · have hhd : hd.id ≠ sub.id := by
        intro hEq
        exact hnotin (hEq ▸ List.mem_map_of_mem (fun x => x.id) htl)
      rw [countP_subBlock_ne db s e sub hd hhd, ih htl hndtl hex,
        Nat.zero_add]

/-- C9: in the candidate branch, a non-excluded substitute appears once
per covering availability row: with unique substitute ids, the number of
candidate entries carrying that substitute equals the number of its
availability intervals covering the target range. -/
theorem listCandidates_entry_per_interval (db : DB) (s e : Nat)
    (sub : SubstituteRow) (hmem : sub ∈ db.substitutes)
    (hnd : (db.substitutes.map (fun t => t.id)).Nodup)
    (hex : sub.id ∉ committedSubIds db s e) :
    (listCandidates db s e).countP (fun c => c.1.id == sub.id) =
      (db.availability.filter
        (fun a => a.substituteId == sub.id && covers a s e)).length := by
  rw [listCandidates,
    List.Perm.countP_eq _ (List.perm_insertionSort candLE _)]
  exact countP_flatMap_subBlock db s e sub db.substitutes hmem hnd hex

/-- State with substitute 1 holding two distinct intervals covering the
target range [15, 18] (and a third, non-covering one), plus an unrelated
substitute 2. -/
def multiDB : DB :=
  { emptyDB with
    substitutes := [⟨1, "SUB1", "Sia", "Moss", "sia@school.example"⟩,
                    ⟨2, "SUB2", "Tia", "Nash", "tia@school.example"⟩],
    availability := [⟨1, 10, 20⟩, ⟨1, 5, 30⟩, ⟨2, 1, 50⟩, ⟨1, 16, 18⟩] }

/-- Witness for C9: substitute 1 has exactly two covering intervals for
[15, 18] and contributes exactly two candidate entries. -/
theorem listCandidates_entry_per_interval_witness :
    (listCandidates multiDB 15 18).countP (fun c => c.1.id == 1) =
      (multiDB.availability.filter
        (fun a => a.substituteId == 1 && covers a 15 18)).length
    ∧ (multiDB.availability.filter
        (fun a => a.substituteId == 1 && covers a 15 18)).length = 2 :=
  ⟨listCandidates_entry_per_interval multiDB 15 18
      ⟨1, "SUB1", "Sia", "Moss", "sia@school.example"⟩
      (by decide) (by decide) (by decide),
    by decide⟩

/-- The assigned-substitute query returns the substitute row together
with its first covering availability row, when substitute ids are
unique. -/
theorem findAssignedSub_head (db : DB) (s e : Nat) (sub : SubstituteRow)
    (a : AvailabilityRow)
    (hnd : (db.substitutes.map (fun t => t.id)).Nodup)
    (hmem : sub ∈ db.substitutes)
    (ha : (db.availability.filter
        (fun x => x.substituteId == sub.id && covers x s e)).head? = some a) :
    findAssignedSub db sub.id s e = some (sub, a) := by
  unfold findAssignedSub
  suffices h : ∀ subs : List SubstituteRow, sub ∈ subs →
      (subs.map (fun t => t.id)).Nodup →
      (subs.flatMap (fun t => if t.id == sub.id then
          (db.availability.filter
            (fun x => x.substituteId == t.id && covers x s e)).map
              (fun x => (t, x))
        else [])).head? = some (sub, a) from h db.substitutes hmem hnd
  intro subs
  induction subs with
  | nil => intro h; exact absurd h (List.not_mem_nil _)
  | cons hd tl ih =>
    intro hmem2 hnd2
    rw [List.map_cons, List.nodup_cons] at hnd2
    obtain ⟨hnotin, hndtl⟩ := hnd2
    rw [List.flatMap_cons, List.head?_append]
    rcases List.mem_cons.1 hmem2 with heq | htl
    · rw [← heq, if_pos (by simp), List.head?_map, ha]
      rfl
    · have hhd : ¬((hd.id == sub.id) = true) := by
        simp only [beq_iff_eq]
        intro hEq
        exact hnotin (hEq ▸ List.mem_map_of_mem (fun x => x.id) htl)
      rw [if_neg hhd]
      simpa using ih htl hndtl

/-- C5 amended: `suggestSubstitutes` short-circuits on the *first*
overlapping request of the staff member (in table order), not on any
overlapping request: when that first request carries a committed
substitute with a covering availability row, the result is the single
entry for that substitute marked already assigned; in every other case —
no overlapping request, first overlapping request without a substitute,
or committed substitute without covering availability — the result is
the ordered candidate list, each entry marked not assigned. -/
theorem suggestSubstitutes_first_request_branching (db : DB)
    (staffNum : String) (stf : StaffRow) (s e : Nat)
    (hstf : db.staff.find? (fun t => t.number == staffNum) = some stf) :
    (∀ (r : TimeOffRow) (sub : SubstituteRow) (a : AvailabilityRow),
      (overlappingRequests db stf.id s e).head? = some r →
      r.substituteId = some sub.id →
      (db.substitutes.map (fun t => t.id)).Nodup →
      sub ∈ db.substitutes →
      (db.availability.filter
        (fun x => x.substituteId == sub.id && covers x s e)).head? = some a →
      suggestSubstitutes db staffNum s e = .ok [mkEntry sub a true])
    ∧ (∀ r : TimeOffRow,
        (overlappingRequests db stf.id s e).head? = some r →
        r.substituteId = none →
        suggestSubstitutes db staffNum s e =
          .ok ((listCandidates db s e).map (fun c => mkEntry c.1 c.2 false)))
    ∧ ((overlappingRequests db stf.id s e).head? = none →
        suggestSubstitutes db staffNum s e =
          .ok ((listCandidates db s e).map (fun c => mkEntry c.1 c.2 false)))
    ∧ (∀ (r : TimeOffRow) (subId : Nat),
        (overlappingRequests db stf.id s e).head? = some r →
        r.substituteId = some subId →
        findAssignedSub db subId s e = none →
        suggestSubstitutes db staffNum s e =
          .ok ((listCandidates db s e).map (fun c => mkEntry c.1 c.2 false))) := by
  refine ⟨?_, ?_, ?_, ?_⟩
  · intro r sub a hr hsubid hnd hmem ha
    have hfa := findAssignedSub_head db s e sub a hnd hmem ha
    simp only [suggestSubstitutes, hstf, hr, hsubid, hfa]
  · intro r hr hsubid
    simp only [suggestSubstitutes, hstf, hr, hsubid]
  · intro hr
    simp only [suggestSubstitutes, hstf, hr]
  · intro r subId hr hsubid hfa
    simp only [suggestSubstitutes, hstf, hr, hsubid, hfa]

instance {ε α : Type} [DecidableEq ε] [DecidableEq α] :
    DecidableEq (Except ε α) := fun x y => by
  cases x <;> cases y
  case error.error a b =>
    exact if h : a = b then isTrue (by rw [h]) else isFalse (by simp [h])
  case error.ok a b => exact isFalse (by simp)
  case ok.error a b => exact isFalse (by simp)
  case ok.ok a b =>
    exact if h : a = b then isTrue (by rw [h]) else isFalse (by simp [h])

/-- State for the C5 counterexample: two requests of staff 10 overlap the
query range [105, 108] — the first (in table order) without a substitute,
the second with committed substitute 20 whose availability covers the
range.  Substitute 21 is free and covering. -/
def firstReqDB : DB :=
  { emptyDB with
    staff := [⟨10, "ST1", "Pat", "Moss"⟩],
    substitutes := [⟨20, "SUBA", "Ada", "Kay", "ada@school.example"⟩,
                    ⟨21, "SUBB", "Bea", "Low", "bea@school.example"⟩],
    availability := [⟨20, 100, 200⟩, ⟨21, 100, 200⟩],
    timeOffRequests := [⟨1, 105, 108, "pd", 10, none⟩,
                        ⟨2, 106, 109, "pd", 10, some 20⟩],
    nextRequestId := 3 }

/-- C5 counterexample: an overlapping request with a committed, covering
substitute (request 2, substitute 20) exists, yet `suggestSubstitutes`
does not return the single already-assigned entry for it — the first
overlapping request has no substitute, so the matcher falls through to
the candidate branch (which also excludes the committed substitute 20). -/
theorem suggestSubstitutes_existing_commitment_counterexample :
    (∃ r ∈ firstReqDB.timeOffRequests, r.staffId = 10 ∧
        dateRangeOverlapsDisj r.startDate r.endDate 105 108 = true ∧
        r.substituteId = some 20 ∧ isAvailable firstReqDB 20 105 108 = true)
    ∧ suggestSubstitutes firstReqDB "ST1" 105 108 =
        .ok [mkEntry ⟨21, "SUBB", "Bea", "Low", "bea@school.example"⟩
              ⟨21, 100, 200⟩ false]
    ∧ suggestSubstitutes firstReqDB "ST1" 105 108 ≠
        .ok [mkEntry ⟨20, "SUBA", "Ada", "Kay", "ada@school.example"⟩
              ⟨20, 100, 200⟩ true] := by
  decide

/-- Witness for the amended C5 at `firstReqDB` (staff ST1, range
[105, 108]), exercising all four branches' premises. -/
theorem suggestSubstitutes_first_request_branching_witness :
    (∀ (r : TimeOffRow) (sub : SubstituteRow) (a : AvailabilityRow),
      (overlappingRequests firstReqDB 10 105 108).head? = some r →
      r.substituteId = some sub.id →
      (firstReqDB.substitutes.map (fun t => t.id)).Nodup →
      sub ∈ firstReqDB.substitutes →
      (firstReqDB.availability.filter
        (fun x => x.substituteId == sub.id && covers x 105 108)).head? = some a →
      suggestSubstitutes firstReqDB "ST1" 105 108 = .ok [mkEntry sub a true])
    ∧ (∀ r : TimeOffRow,
        (overlappingRequests firstReqDB 10 105 108).head? = some r →
        r.substituteId = none →
        suggestSubstitutes firstReqDB "ST1" 105 108 =
          .ok ((listCandidates firstReqDB 105 108).map
            (fun c => mkEntry c.1 c.2 false)))
    ∧ ((overlappingRequests firstReqDB 10 105 108).head? = none →
        suggestSubstitutes firstReqDB "ST1" 105 108 =
          .ok ((listCandidates firstReqDB 105 108).map
            (fun c => mkEntry c.1 c.2 false)))
    ∧ (∀ (r : TimeOffRow) (subId : Nat),
        (overlappingRequests firstReqDB 10 105 108).head? = some r →
        r.substituteId = some subId →
        findAssignedSub firstReqDB subId 105 108 = none →
        suggestSubstitutes firstReqDB "ST1" 105 108 =
          .ok ((listCandidates firstReqDB 105 108).map
            (fun c => mkEntry c.1 c.2 false))) :=
  suggestSubstitutes_first_request_branching firstReqDB "ST1"
    ⟨10, "ST1", "Pat", "Moss"⟩ 105 108 (by decide)

/-! ### fillClass helper lemmas (C3, C6) -/

/-- The inserted pair is a member afterwards. -/
theorem mem_insertIfAbsent_self (l : List (Nat × Nat)) (p : Nat × Nat) :
    p ∈ insertIfAbsent l p := by
  unfold insertIfAbsent
  split
  · assumption
  · simp

/-- Insertion preserves existing members. -/
theorem mem_insertIfAbsent_of_mem {l : List (Nat × Nat)} {q : Nat × Nat}
    (p : Nat × Nat) (h : q ∈ l) : q ∈ insertIfAbsent l p := by
  unfold insertIfAbsent
  split
  · exact h
  · exact List.mem_append_left _ h

/-- Inserting an already-present pair is a no-op. -/
theorem insertIfAbsent_of_mem {l : List (Nat × Nat)} {p : Nat × Nat}
    (h : p ∈ l) : insertIfAbsent l p = l := by
  unfold insertIfAbsent
  exact if_pos h

/-- Membership after an insertion. -/
theorem mem_insertIfAbsent_iff (l : List (Nat × Nat)) (p q : Nat × Nat) :
    q ∈ insertIfAbsent l p ↔ q ∈ l ∨ q = p := by
  unfold insertIfAbsent
  split
  · next h => exact ⟨Or.inl, fun hq => hq.elim id (fun hqp => hqp ▸ h)⟩
  · simp

/-- Collapsing a trivial update of the `staffToClass` field. -/
theorem DB.eta_staffToClass (db : DB) :
    { db with staffToClass := db.staffToClass } = db := rfl

/-- Collapsing a trivial update of the `studentToClass` field. -/
theorem DB.eta_studentToClass (db : DB) :
    { db with studentToClass := db.studentToClass } = db := rfl

/-- `enrollStudent` changes only the `studentToClass` table. -/
theorem enrollStudent_students (db : DB) (n : String) (cid : Nat) :
    (enrollStudent db n cid).students = db.students := by
  unfold enrollStudent
  split <;> rfl

/-- `enrollStudent` leaves the class table unchanged. -/
theorem enrollStudent_classes (db : DB) (n : String) (cid : Nat) :
    (enrollStudent db n cid).classes = db.classes := by
  unfold enrollStudent
  split <;> rfl

/-- `enrollStudent` leaves the class-type table unchanged. -/
theorem enrollStudent_classTypes (db : DB) (n : String) (cid : Nat) :
    (enrollStudent db n cid).classTypes = db.classTypes := by
  unfold enrollStudent
  split <;> rfl

/-- `enrollStudent` leaves the staff table unchanged. -/
theorem enrollStudent_staff (db : DB) (n : String) (cid : Nat) :
    (enrollStudent db n cid).staff = db.staff := by
  unfold enrollStudent
  split <;> rfl

/-- `enrollStudent` leaves the staff assignments unchanged. -/
theorem enrollStudent_staffToClass (db : DB) (n : String) (cid : Nat) :
    (enrollStudent db n cid).staffToClass = db.staffToClass := by
  unfold enrollStudent
  split <;> rfl

/-- `enrollAll` changes only the `studentToClass` table (student field). -/
theorem enrollAll_students (ns : List String) (cid : Nat) :
    ∀ db : DB, (enrollAll db ns cid).students = db.students := by
  induction ns with
  | nil => intro db; rfl
  | cons m tl ih =>
    intro db
    rw [enrollAll, List.foldl_cons]
    exact (ih (enrollStudent db m cid)).trans (enrollStudent_students db m cid)

/-- `enrollAll` leaves the class table unchanged. -/
theorem enrollAll_classes (ns : List String) (cid : Nat) :
    ∀ db : DB, (enrollAll db ns cid).classes = db.classes := by
  induction ns with
  | nil => intro db; rfl
  | cons m tl ih =>
    intro db
    rw [enrollAll, List.foldl_cons]
    exact (ih (enrollStudent db m cid)).trans (enrollStudent_classes db m cid)

/-- `enrollAll` leaves the class-type table unchanged. -/
theorem enrollAll_classTypes (ns : List String) (cid : Nat) :
    ∀ db : DB, (enrollAll db ns cid).classTypes = db.classTypes := by
  induction ns with
  | nil => intro db; rfl
  | cons m tl ih =>
    intro db
    rw [enrollAll, List.foldl_cons]
    exact (ih (enrollStudent db m cid)).trans (enrollStudent_classTypes db m cid)

/-- `enrollAll` leaves the staff table unchanged. -/
theorem enrollAll_staff (ns : List String) (cid : Nat) :
    ∀ db : DB, (enrollAll db ns cid).staff = db.staff := by
  induction ns with
  | nil => intro db; rfl
  | cons m tl ih =>
    intro db
    rw [enrollAll, List.foldl_cons]
    exact (ih (enrollStudent db m cid)).trans (enrollStudent_staff db m cid)

/-- `enrollAll` leaves the staff assignments unchanged. -/
theorem enrollAll_staffToClass (ns : List String) (cid : Nat) :
    ∀ db : DB, (enrollAll db ns cid).staffToClass = db.staffToClass := by
  induction ns with
  | nil => intro db; rfl
  | cons m tl ih =>
    intro db
    rw [enrollAll, List.foldl_cons]
    exact (ih (enrollStudent db m cid)).trans (enrollStudent_staffToClass db m cid)

/-- The number lookup is unchanged by an enrollment step. -/
theorem findStudentByNumber_enrollStudent (db : DB) (m n : String) (cid : Nat) :
    findStudentByNumber (enrollStudent db m cid) n = findStudentByNumber db n := by
  unfold findStudentByNumber
  rw [enrollStudent_students]

/-- Enrollment never removes a `StudentToClass` row. -/
theorem enrollStudent_stc_mono {db : DB} {p : Nat × Nat} (n : String)
    (cid : Nat) (h : p ∈ db.studentToClass) :
    p ∈ (enrollStudent db n cid).studentToClass := by
  unfold enrollStudent
  split
  · exact mem_insertIfAbsent_of_mem _ h
  · exact h

/-- The enrollment loop never removes a `StudentToClass` row. -/
theorem enrollAll_stc_mono (ns : List String) (cid : Nat) :
    ∀ {db : DB} {p : Nat × Nat}, p ∈ db.studentToClass →
      p ∈ (enrollAll db ns cid).studentToClass := by
  induction ns with
  | nil => intro db p h; exact h
  | cons m tl ih =>
    intro db p h
    rw [enrollAll, List.foldl_cons]
    exact ih (enrollStudent_stc_mono m cid h)

/-- A processed number whose lookup resolves is enrolled afterwards. -/
theorem enrollAll_mem_of_found (ns : List String) (cid : Nat) :
    ∀ {db : DB} {n : String} {s : StudentRow}, n ∈ ns →
      findStudentByNumber db n = some s →
      (s.id, cid) ∈ (enrollAll db ns cid).studentToClass := by
  induction ns with
  | nil => intro db n s h; exact absurd h (List.not_mem_nil _)
  | cons m tl ih =>
    intro db n s hmem hfind
    rw [enrollAll, List.foldl_cons]
    rcases List.mem_cons.1 hmem with heq | htl
    · apply enrollAll_stc_mono
      rw [heq] at hfind
      unfold enrollStudent
      rw [hfind]
      exact mem_insertIfAbsent_self _ _
    · have hfind' : findStudentByNumber (enrollStudent db m cid) n = some s := by
        rw [findStudentByNumber_enrollStudent]
        exact hfind
      exact ih htl hfind'

/-- When every processed number is already enrolled, the loop is the
identity. -/
theorem enrollAll_eq_self (ns : List String) (cid : Nat) :
    ∀ {db : DB},
      (∀ n ∈ ns, ∀ s : StudentRow, findStudentByNumber db n = some s →
        (s.id, cid) ∈ db.studentToClass) →
      enrollAll db ns cid = db := by
  induction ns with
  | nil => intro db _; rfl
  | cons m tl ih =>
    intro db h
    rw [enrollAll, List.foldl_cons]
    have hm : enrollStudent db m cid = db := by
      unfold enrollStudent
      cases hfind : findStudentByNumber db m with
      | none => rfl
      | some s =>
        change { db with
          studentToClass := insertIfAbsent db.studentToClass (s.id, cid) } = db
        rw [insertIfAbsent_of_mem (h m (List.mem_cons_self m tl) s hfind)]
    rw [hm]
    exact ih (fun n hn s hfind => h n (List.mem_cons_of_mem m hn) s hfind)

/-- Membership in the enrollment table after the loop. -/
theorem enrollAll_mem_iff (ns : List String) (cid : Nat) :
    ∀ (db : DB) (p : Nat × Nat),
      p ∈ (enrollAll db ns cid).studentToClass ↔
        p ∈ db.studentToClass ∨ ∃ n ∈ ns, ∃ s : StudentRow,
          findStudentByNumber db n = some s ∧ p = (s.id, cid) := by
  induction ns with
  | nil => intro db p; simp [enrollAll]
  | cons m tl ih =>
    intro db p
    rw [enrollAll, List.foldl_cons]
    rw [show List.foldl (fun acc n => enrollStudent acc n cid) (enrollStudent db m cid) tl =
      enrollAll (enrollStudent db m cid) tl cid from rfl]
    rw [ih]
    have hstep : p ∈ (enrollStudent db m cid).studentToClass ↔
        p ∈ db.studentToClass ∨ ∃ s : StudentRow,
          findStudentByNumber db m = some s ∧ p = (s.id, cid) := by
      unfold enrollStudent
      cases hfind : findStudentByNumber db m with
      | none => simp
      | some s =>
        simp only [mem_insertIfAbsent_iff]
        constructor
        · rintro (h | h)
          · exact Or.inl h
          · exact Or.inr ⟨s, rfl, h⟩
        · rintro (h | ⟨t, ht, hp⟩)
          · exact Or.inl h
          · cases Option.some.inj ht
            exact Or.inr hp
    rw [hstep]
    constructor
    · rintro ((h | ⟨s, hs, hp⟩) | ⟨n, hn, s, hs, hp⟩)
      · exact Or.inl h
      · exact Or.inr ⟨m, List.mem_cons_self m tl, s, hs, hp⟩
      · rw [findStudentByNumber_enrollStudent] at hs
        exact Or.inr ⟨n, List.mem_cons_of_mem m hn, s, hs, hp⟩
    · rintro (h | ⟨n, hn, s, hs, hp⟩)
      · exact Or.inl (Or.inl h)
      · rcases List.mem_cons.1 hn with heq | htl
        · exact Or.inl (Or.inr ⟨s, heq ▸ hs, hp⟩)
        · refine Or.inr ⟨n, htl, s, ?_, hp⟩
          rw [findStudentByNumber_enrollStudent]
          exact hs

/-- Growing the enrollment table can only extend a student's homeroom
obligations. -/
theorem hasOtherHomeroom_mono {db db' : DB} (hcls : db'.classes = db.classes)
    (hsub : ∀ p : Nat × Nat, p ∈ db.studentToClass → p ∈ db'.studentToClass)
    (sid : Nat) (target : String)
    (h : hasOtherHomeroom db sid target = true) :
    hasOtherHomeroom db' sid target = true := by
  rw [hasOtherHomeroom, List.any_eq_true] at h ⊢
  rcases h with ⟨p, hp, hcond⟩
  refine ⟨p, hsub p hp, ?_⟩
  rw [hcls]
  exact hcond

/-- The details query reads only the class and class-type tables. -/
theorem getClassDetails_congr {db db' : DB} (h1 : db'.classes = db.classes)
    (h2 : db'.classTypes = db.classTypes) (n : String) :
    getClassDetails db' n = getClassDetails db n := by
  simp only [getClassDetails, h1, h2]

/-- C6: running `fillClass` twice with the same inputs yields the same
result and the same final state as running it once — the staff-assignment
insert and every student-enrollment insert of the second run are no-ops,
so the second run converges to the first run's state and roster. -/
theorem fillClass_idempotent (db : DB) (cn sn : String) :
    fillClass (fillClass db cn sn).2 cn sn = fillClass db cn sn := by
  cases hc : findClassByNumber db cn with
  | none => simp [fillClass, hc]
  | some c =>
  cases hst : findStaffByNumber db sn with
  | none => simp [fillClass, hc, hst]
  | some stf =>
  simp only [fillClass, hc, hst]
  set db1 : DB :=
    { db with staffToClass := insertIfAbsent db.staffToClass (stf.id, c.id) } with hdb1
  have hc1 : findClassByNumber db1 cn = some c := hc
  have hst1 : findStaffByNumber db1 sn = some stf := hst
  have hpair1 : (stf.id, c.id) ∈ db1.staffToClass := mem_insertIfAbsent_self _ _
  cases hd : getClassDetails db1 cn with
  | none =>
    simp only [hd]
    simp only [fillClass, hc1, hst1, insertIfAbsent_of_mem hpair1,
      DB.eta_staffToClass, hd]
  | some det =>
    obtain ⟨tA, tB, g⟩ := det
    simp only [hd]
    set nums1 := (eligibleStudents db1 g cn).map (fun s => s.number) with hnums1
    set db2 : DB := enrollAll db1 nums1 c.id with hdb2
    have hstud2 : db2.students = db1.students := by
      rw [hdb2, enrollAll_students]
    have hcls2 : db2.classes = db1.classes := by
      rw [hdb2, enrollAll_classes]
    have hc2 : findClassByNumber db2 cn = some c := by
      unfold findClassByNumber
      rw [hcls2]
      exact hc1
    have hst2 : findStaffByNumber db2 sn = some stf := by
      unfold findStaffByNumber
      rw [hdb2, enrollAll_staff]
      exact hst1
    have hpair2 : (stf.id, c.id) ∈ db2.staffToClass := by
      rw [hdb2, enrollAll_staffToClass]
      exact hpair1
    have hd2 : getClassDetails db2 cn = some (tA, tB, g) := by
      rw [getClassDetails_congr hcls2 (by rw [hdb2, enrollAll_classTypes]) cn]
      exact hd
    have henroll :
        enrollAll db2 ((eligibleStudents db2 g cn).map (fun s => s.number)) c.id = db2 := by
      apply enrollAll_eq_self
      intro n hn s hfind
      rcases List.mem_map.1 hn with ⟨t, ht, rfl⟩
      have ht1 : t ∈ eligibleStudents db1 g cn := by
        rw [eligibleStudents, List.mem_filter] at ht ⊢
        obtain ⟨htmem, htcond⟩ := ht
        rw [Bool.and_eq_true] at htcond
        obtain ⟨hgr, hnh⟩ := htcond
        refine ⟨by rw [← hstud2]; exact htmem, ?_⟩
        rw [Bool.and_eq_true]
        refine ⟨hgr, ?_⟩
        rw [Bool.not_eq_true'] at hnh ⊢
        cases hoh : hasOtherHomeroom db1 t.id cn with
        | false => rfl
        | true =>
          exfalso
          have := @hasOtherHomeroom_mono db1 db2 hcls2
            (fun p hp => by rw [hdb2]; exact enrollAll_stc_mono nums1 c.id hp)
            t.id cn hoh
          rw [hnh] at this
          exact Bool.false_ne_true this
      have hfind1 : findStudentByNumber db1 t.number = some s := by
        rw [← hfind]
        unfold findStudentByNumber
        rw [hstud2]
      have hmem2 : (s.id, c.id) ∈ (enrollAll db1 nums1 c.id).studentToClass :=
        enrollAll_mem_of_found nums1 c.id
          (by rw [hnums1]; exact List.mem_map_of_mem (fun s => s.number) ht1) hfind1
      rw [hdb2]
      exact hmem2
    simp only [fillClass, hc2, hst2, insertIfAbsent_of_mem hpair2,
      DB.eta_staffToClass, hd2, henroll]

/-- With unique student numbers, the number lookup of a stored student
returns that student. -/
theorem find?_number_nodup (l : List StudentRow) (s : StudentRow)
    (hnd : (l.map (fun t => t.number)).Nodup) (hmem : s ∈ l) :
    l.find? (fun t => t.number == s.number) = some s := by
  induction l with
  | nil => exact absurd hmem (List.not_mem_nil _)
  | cons hd tl ih =>
    rw [List.map_cons, List.nodup_cons] at hnd
    obtain ⟨hnotin, hndtl⟩ := hnd
    rcases List.mem_cons.1 hmem with heq | htl
    · rw [@List.find?_cons_of_pos _ (fun t => t.number == s.number) hd tl
        (by rw [heq]; exact beq_self_eq_true _)]
      rw [heq]
    · have hne : ¬((fun t => t.number == s.number) hd = true) := by
        simp only [beq_iff_eq]
        intro hEq
        exact hnotin (hEq ▸ List.mem_map_of_mem (fun t => t.number) htl)
      rw [@List.find?_cons_of_neg _ (fun t => t.number == s.number) hd tl hne]
      exact ih hndtl htl

/-- C3: when the class, staff and details lookups resolve and student
numbers are unique, `fillClass` enrolls exactly the students whose
stored grade equals the class's derived grade `g` and who hold no
enrollment in a homeroom-flagged class other than the target class; in
particular a student enrolled in a different homeroom-flagged class is
never in the eligible set. -/
theorem fillClass_enrolls_exactly_eligible (db : DB) (cn sn : String)
    (c : ClassRow) (stf : StaffRow) (tA tB : Nat) (g : String)
    (hc : findClassByNumber db cn = some c)
    (hst : findStaffByNumber db sn = some stf)
    (hd : getClassDetails db cn = some (tA, tB, g))
    (hnd : (db.students.map (fun t => t.number)).Nodup) :
    (∀ p : Nat × Nat, p ∈ (fillClass db cn sn).2.studentToClass ↔
        p ∈ db.studentToClass ∨ ∃ s ∈ db.students, s.grade = g ∧
          hasOtherHomeroom db s.id cn = false ∧ p = (s.id, c.id))
    ∧ (∀ (s : StudentRow) (h : ClassRow), s ∈ db.students → h ∈ db.classes →
        isHomeroomType h.classTypeId = true → h.number ≠ cn →
        (s.id, h.id) ∈ db.studentToClass → s ∉ eligibleStudents db g cn) := by
  constructor
  · intro p
    have hd1 : getClassDetails
        { db with staffToClass := insertIfAbsent db.staffToClass (stf.id, c.id) } cn =
        some (tA, tB, g) := hd
    simp only [fillClass, hc, hst, hd1]
    rw [enrollAll_mem_iff]
    constructor
    · rintro (h | ⟨n, hn, s, hs, hp⟩)
      · exact Or.inl h
      · rcases List.mem_map.1 hn with ⟨t, htel, heqn⟩
        have htel' : t ∈ eligibleStudents db g cn := htel
        have hfil := List.mem_filter.1 htel'
        obtain ⟨htmem, htcond⟩ := hfil
        rw [Bool.and_eq_true] at htcond
        obtain ⟨hgr, hnh⟩ := htcond
        have hst' : findStudentByNumber db n = some t := by
          rw [← heqn]
          exact find?_number_nodup db.students t hnd htmem
        have hts : s = t := by
          have hs' : findStudentByNumber db n = some s := hs
          exact Option.some.inj (hs'.symm.trans hst')
        refine Or.inr ⟨t, htmem, beq_iff_eq.1 hgr, ?_, ?_⟩
        · rw [Bool.not_eq_true'] at hnh
          exact hnh
        · rw [← hts]
          exact hp
    · rintro (h | ⟨s, hsmem, hgr, hnh, hp⟩)
      · exact Or.inl h
      · have hsel : s ∈ eligibleStudents db g cn := by
          rw [eligibleStudents, List.mem_filter]
          exact ⟨hsmem, by simp [hgr, hnh]⟩
        refine Or.inr ⟨s.number, List.mem_map_of_mem (fun t => t.number) hsel,
          s, ?_, hp⟩
        exact find?_number_nodup db.students s hnd hsmem
  · intro s h hsmem hcls hhr hne henr hmem_el
    rw [eligibleStudents, List.mem_filter] at hmem_el
    have hoh : hasOtherHomeroom db s.id cn = true := by
      rw [hasOtherHomeroom, List.any_eq_true]
      refine ⟨(s.id, h.id), henr, ?_⟩
      rw [Bool.and_eq_true]
      refine ⟨by simp, ?_⟩
      rw [List.any_eq_true]
      exact ⟨h, hcls, by simp [hhr, hne]⟩
    have hcond := hmem_el.2
    rw [Bool.and_eq_true] at hcond
    have := hcond.2
    rw [Bool.not_eq_true', hoh] at this
    exact absurd this (by decide)

/-- State for the homeroom scenario: grade-3 students S1 (already in
homeroom class C10) and S2 (free), a grade-4 student S3, and the target
homeroom class C11 of the same grade. -/
def hrDB : DB :=
  { emptyDB with
    students := [⟨1, "S1", "3"⟩, ⟨2, "S2", "3"⟩, ⟨3, "S3", "4"⟩],
    classes := [⟨10, "C10", "3HR", "R1", 540, 60⟩,
                ⟨11, "C11", "3HR", "R1", 600, 60⟩],
    classTypes := ["3HR"],
    rooms := ["R1"],
    staff := [⟨7, "ST7", "Ona", "Diaz"⟩],
    studentToClass := [(1, 10)] }

/-- Witness for C3 at `hrDB`: filling class C11 enrolls exactly the
grade-3 students without another homeroom, and a student enrolled in
homeroom C10 is never eligible for C11. -/
theorem fillClass_enrolls_exactly_eligible_witness :
    (∀ p : Nat × Nat, p ∈ (fillClass hrDB "C11" "ST7").2.studentToClass ↔
        p ∈ hrDB.studentToClass ∨ ∃ s ∈ hrDB.students, s.grade = "3" ∧
          hasOtherHomeroom hrDB s.id "C11" = false ∧ p = (s.id, 11))
    ∧ (∀ (s : StudentRow) (h : ClassRow), s ∈ hrDB.students →
        h ∈ hrDB.classes → isHomeroomType h.classTypeId = true →
        h.number ≠ "C11" → (s.id, h.id) ∈ hrDB.studentToClass →
        s ∉ eligibleStudents hrDB "3" "C11") :=
  fillClass_enrolls_exactly_eligible hrDB "C11" "ST7"
    ⟨11, "C11", "3HR", "R1", 600, 60⟩ ⟨7, "ST7", "Ona", "Diaz"⟩ 600 60 "3"
    (by decide) (by decide) (by decide) (by decide)
